import Mathlib

/-!
Verification of the InsureVis web portal client (login/role router,
car-company review portal, insurance-company review portal, admin signup).

Strings are modelled as lists of characters.  JavaScript runtime behaviour
that the code relies on is embedded explicitly: string trimming, ASCII
lower-casing, regular-expression separator collapsing, and the truthiness
of nullable string and boolean columns.
-/

set_option maxHeartbeats 1000000

namespace Insurevis

/-- Code points of the ECMAScript WhiteSpace and LineTerminator sets: the
characters removed by String.prototype.trim and matched by the regex class
used in the role normalizers (TAB LF VT FF CR SP NBSP OGHAM EN-QUAD..HAIR
LS PS NNBSP MMSP IDSP ZWNBSP). -/
def jsWhitespaceCodes : List Nat :=
  [9, 10, 11, 12, 13, 32, 160, 5760,
   8192, 8193, 8194, 8195, 8196, 8197, 8198, 8199, 8200, 8201, 8202,
   8232, 8233, 8239, 8287, 12288, 65279]

/-- Whether a character is JavaScript whitespace. -/
def isWsChar (c : Char) : Bool := jsWhitespaceCodes.contains c.toNat

/-- The separator class of the normalizer regexes: whitespace or a hyphen. -/
def isRoleSep (c : Char) : Bool := isWsChar c || c == '-'

/-- String.prototype.toLowerCase, restricted to the ASCII letters; mappings
of non-ASCII letters are not modelled (they cannot affect the ASCII tokens
the role normalizers test for). -/
def jsToLower (c : Char) : Char :=
  if 65 ≤ c.toNat ∧ c.toNat ≤ 90 then Char.ofNat (c.toNat + 32) else c

/-- Lower-case every character of a string. -/
def lowerL (s : List Char) : List Char := s.map jsToLower

/-- String.prototype.trim: drop JavaScript whitespace from both ends. -/
def trimL (s : List Char) : List Char :=
  (((s.dropWhile isWsChar).reverse).dropWhile isWsChar).reverse

/-- Worker for collapseRuns; the flag records whether the previous character
was part of a separator run. -/
def collapseRunsAux (sep : Char → Bool) (rep : Char) : Bool → List Char → List Char
  | _, [] => []
  | inRun, c :: rest =>
    if sep c then
      (if inRun then [] else [rep]) ++ collapseRunsAux sep rep true rest
    else
      c :: collapseRunsAux sep rep false rest

/-- Replace every maximal run of separator characters by a single
replacement character: the effect of String.prototype.replace with a global
regex of the form [class]+ . -/
def collapseRuns (sep : Char → Bool) (rep : Char) (s : List Char) : List Char :=
  collapseRunsAux sep rep false s

/-- Does the second string start with the first one. -/
def begWith : List Char → List Char → Bool
  | [], _ => true
  | _ :: _, [] => false
  | a :: as, b :: bs => a == b && begWith as bs

/-- String.prototype.includes: does the second string contain the first as a
contiguous substring. -/
def containsTok (needle : List Char) : List Char → Bool
  | [] => begWith needle []
  | c :: rest => begWith needle (c :: rest) || containsTok needle rest

/-- Keys of the ROLE_ROUTES table in src/public/login.js. -/
def loginRoleRouteKeys : List (List Char) :=
  ["car_company".toList, "car-company".toList, "car company".toList,
   "insurance_company".toList, "insurance-company".toList, "insurance company".toList,
   "admin".toList, "administrator".toList]

/-- Keys of the ROLE_ROUTES table in src/public/insurance-company/app.js. -/
def appRoleRouteKeys : List (List Char) :=
  ["car_company".toList, "car-company".toList,
   "insurance_company".toList, "insurance-company".toList]

/-- Property names every plain object literal inherits from
Object.prototype, all of whose values are truthy (functions, or the
prototype object itself for the dunder proto accessor).  A bracket read on
ROLE_ROUTES hits these too. -/
def objectPrototypeKeys : List (List Char) :=
  ["constructor".toList, "hasOwnProperty".toList, "isPrototypeOf".toList,
   "propertyIsEnumerable".toList, "toLocaleString".toList, "toString".toList,
   "valueOf".toList, "__proto__".toList, "__defineGetter__".toList,
   "__defineSetter__".toList, "__lookupGetter__".toList,
   "__lookupSetter__".toList]

/-- Truthiness of the JavaScript property read ROLE_ROUTES[key]: every own
key of the route table holds a non-empty string, and the lookup traverses
the prototype chain, so the truthy Object.prototype properties answer as
well. -/
def roleRouteHit (ownKeys : List (List Char)) (key : List Char) : Bool :=
  ownKeys.contains key || objectPrototypeKeys.contains key

def carCompanyRole : List Char := "car_company".toList

def insuranceCompanyRole : List Char := "insurance_company".toList

def adminRole : List Char := "admin".toList

def carTok : List Char := "car".toList

def companyTok : List Char := "company".toList

def insuranceTok : List Char := "insurance".toList

def adminTok : List Char := "admin".toList

/-- The normalized variable of normalizeRole in src/public/login.js:
trim, then toLowerCase, then replace separator runs with underscores. -/
def loginNormalized (role : List Char) : List Char :=
  collapseRuns isRoleSep '_' (lowerL (trimL role))

/-- The value variable of normalizeRole in
src/public/insurance-company/app.js: toLowerCase, then trim, then replace
separator runs with underscores. -/
def appNormalized (role : List Char) : List Char :=
  collapseRuns isRoleSep '_' (trimL (lowerL role))

/-- normalizeRole from src/public/login.js.  A null or empty role is falsy
and yields null; otherwise the normalized role is tested for the tokens in
order, falling back to the route-table keys. -/
def normalizeRoleLogin (role : List Char) : Option (List Char) :=
  if role.isEmpty then none
  else if containsTok carTok (loginNormalized role) &&
          containsTok companyTok (loginNormalized role) then
    some carCompanyRole
  else if containsTok insuranceTok (loginNormalized role) &&
          containsTok companyTok (loginNormalized role) then
    some insuranceCompanyRole
  else if containsTok adminTok (loginNormalized role) then
    some adminRole
  else if roleRouteHit loginRoleRouteKeys (loginNormalized role) then
    some (loginNormalized role)
  else
    none

/-- normalizeRole from src/public/insurance-company/app.js: it has no admin
branch and falls back to its own smaller route table. -/
def normalizeRoleApp (role : List Char) : Option (List Char) :=
  if role.isEmpty then none
  else if containsTok carTok (appNormalized role) &&
          containsTok companyTok (appNormalized role) then
    some carCompanyRole
  else if containsTok insuranceTok (appNormalized role) &&
          containsTok companyTok (appNormalized role) then
    some insuranceCompanyRole
  else if roleRouteHit appRoleRouteKeys (appNormalized role) then
    some (appNormalized role)
  else
    none

/-! Substring-preservation lemmas used for the role-normalizer claim. -/

theorem containsTok_nil (l : List Char) : containsTok [] l = true := by
  cases l <;> simp [containsTok, begWith]

theorem containsTok_of_begWith {p l : List Char} (h : begWith p l = true) :
    containsTok p l = true := by
  cases l with
  | nil => simpa [containsTok] using h
  | cons c rest => simp [containsTok, h]

theorem begWith_collapseRunsAux (sep : Char → Bool) (rep : Char) :
    ∀ (p l : List Char) (b : Bool), (∀ c ∈ p, sep c = false) →
      begWith p l = true → begWith p (collapseRunsAux sep rep b l) = true := by
  intro p
  induction p with
  | nil => intro l b _ _; simp [begWith]
  | cons a as ih =>
    intro l b hp h
    cases l with
    | nil => simp [begWith] at h
    | cons c cs =>
      simp only [begWith, Bool.and_eq_true, beq_iff_eq] at h
      obtain ⟨rfl, h2⟩ := h
      have hsa : sep a = false := hp a (by simp)
      simp only [collapseRunsAux, hsa, if_neg (by simp [hsa] : ¬ sep a = true)]
      simp only [begWith, Bool.and_eq_true, beq_iff_eq]
      exact ⟨by trivial, ih cs false (fun c hc => hp c (by simp [hc])) h2⟩

theorem containsTok_append_left (p t x : List Char) (h : containsTok p t = true) :
    containsTok p (x ++ t) = true := by
  induction x with
  | nil => simpa using h
  | cons c xs ih => simp [containsTok, ih]

theorem containsTok_collapseRunsAux (sep : Char → Bool) (rep : Char)
    (p : List Char) (hp : ∀ c ∈ p, sep c = false) :
    ∀ (l : List Char) (b : Bool), containsTok p l = true →
      containsTok p (collapseRunsAux sep rep b l) = true := by
  intro l
  induction l with
  | nil => intro b h; simpa [containsTok, collapseRunsAux] using h
  | cons c rest ih =>
    intro b h
    simp only [containsTok, Bool.or_eq_true] at h
    rcases h with hb | hc
    · exact containsTok_of_begWith
        (begWith_collapseRunsAux sep rep p (c :: rest) b hp hb)
    · by_cases hsc : sep c = true
      · simp only [collapseRunsAux, if_pos hsc]
        rcases b with _ | _
        · simpa using containsTok_append_left p _ [rep] (ih true hc)
        · simpa using ih true hc
      · simp only [collapseRunsAux, if_neg hsc]
        exact containsTok_append_left p _ [c] (ih false hc)

theorem containsTok_dropWhile (p : List Char)
    (hp : ∀ c ∈ p, isWsChar c = false) :
    ∀ l : List Char, containsTok p l = true →
      containsTok p (l.dropWhile isWsChar) = true := by
  intro l
  induction l with
  | nil => intro h; simpa using h
  | cons c rest ih =>
    intro h
    simp only [containsTok, Bool.or_eq_true] at h
    by_cases hws : isWsChar c = true
    · rcases h with hb | hc
      · cases p with
        | nil => exact containsTok_nil _
        | cons a as =>
          simp only [begWith, Bool.and_eq_true, beq_iff_eq] at hb
          have := hp a (by simp)
          rw [hb.1] at this
          rw [this] at hws
          exact absurd hws (by simp)
      · simpa [List.dropWhile, hws] using ih hc
    · have hf : isWsChar c = false := by simpa using hws
      have hd : (c :: rest).dropWhile isWsChar = c :: rest := by
        simp [List.dropWhile, hf]
      rw [hd]
      simp only [containsTok, Bool.or_eq_true]
      rcases h with hb | hc
      · exact Or.inl hb
      · exact Or.inr hc

theorem begWith_exists {p l : List Char} (h : begWith p l = true) :
    ∃ t, l = p ++ t := by
  induction p generalizing l with
  | nil => exact ⟨l, rfl⟩
  | cons a as ih =>
    cases l with
    | nil => simp [begWith] at h
    | cons c cs =>
      simp only [begWith, Bool.and_eq_true, beq_iff_eq] at h
      obtain ⟨rfl, h2⟩ := h
      obtain ⟨t, rfl⟩ := ih h2
      exact ⟨t, rfl⟩

theorem begWith_self_append (p t : List Char) : begWith p (p ++ t) = true := by
  induction p with
  | nil => simp [begWith]
  | cons a as ih => simp [begWith, ih]

theorem containsTok_parts (p x y : List Char) :
    containsTok p (x ++ p ++ y) = true := by
  induction x with
  | nil =>
    simp only [List.nil_append]
    exact containsTok_of_begWith (begWith_self_append p y)
  | cons c xs ih =>
    simp only [List.cons_append, containsTok, Bool.or_eq_true]
    exact Or.inr ih

theorem begWith_append_ext (p t y : List Char) (h : begWith p t = true) :
    begWith p (t ++ y) = true := by
  obtain ⟨u, rfl⟩ := begWith_exists h
  have : p ++ u ++ y = p ++ (u ++ y) := by simp
  rw [this]
  exact begWith_self_append p (u ++ y)

theorem containsTok_append_ext (p t y : List Char) (h : containsTok p t = true) :
    containsTok p (t ++ y) = true := by
  induction t with
  | nil =>
    have hp : p = [] := by
      cases p with
      | nil => rfl
      | cons a as => simp [containsTok, begWith] at h
    subst hp
    exact containsTok_nil _
  | cons d ds ih =>
    simp only [containsTok, Bool.or_eq_true] at h
    simp only [List.cons_append, containsTok, Bool.or_eq_true]
    rcases h with hb | hc
    · exact Or.inl (by simpa using begWith_append_ext p (d :: ds) y hb)
    · exact Or.inr (ih hc)

theorem containsTok_reverse (p l : List Char) (h : containsTok p l = true) :
    containsTok p.reverse l.reverse = true := by
  induction l with
  | nil =>
    have hp : p = [] := by
      cases p with
      | nil => rfl
      | cons a as => simp [containsTok, begWith] at h
    subst hp
    exact containsTok_nil _
  | cons c rest ih =>
    simp only [containsTok, Bool.or_eq_true] at h
    rcases h with hb | hc
    · obtain ⟨t, ht⟩ := begWith_exists hb
      rw [ht, List.reverse_append]
      exact containsTok_append_left _ _ _
        (by simpa using containsTok_parts p.reverse [] [])
    · rw [List.reverse_cons]
      exact containsTok_append_ext _ _ [c] (ih hc)

theorem containsTok_trimL (p : List Char)
    (hp : ∀ c ∈ p, isWsChar c = false)
    (l : List Char) (h : containsTok p l = true) :
    containsTok p (trimL l) = true := by
  have h1 : containsTok p (l.dropWhile isWsChar) = true :=
    containsTok_dropWhile p hp l h
  have h2 : containsTok p.reverse (l.dropWhile isWsChar).reverse = true :=
    containsTok_reverse _ _ h1
  have hpr : ∀ c ∈ p.reverse, isWsChar c = false := by
    intro c hc
    exact hp c (List.mem_reverse.mp hc)
  have h3 : containsTok p.reverse
      (((l.dropWhile isWsChar).reverse).dropWhile isWsChar) = true :=
    containsTok_dropWhile p.reverse hpr _ h2
  have h4 := containsTok_reverse _ _ h3
  simpa [trimL] using h4

/-! Lower-casing commutes with trimming, because case mapping leaves
whitespace alone and never produces whitespace. -/

theorem isWsChar_jsToLower (c : Char) : isWsChar (jsToLower c) = isWsChar c := by
  unfold jsToLower
  split
  · rename_i hcond
    have hval : (Char.ofNat (c.toNat + 32)).toNat = c.toNat + 32 := by
      have hvalid : (c.toNat + 32).isValidChar := by
        constructor
        omega
      rw [Char.ofNat, dif_pos hvalid]
      rfl
    have hlow : isWsChar (Char.ofNat (c.toNat + 32)) = false := by
      simp only [isWsChar, jsWhitespaceCodes]
      rw [hval]
      generalize hg : c.toNat + 32 = n
      have h1 : 97 ≤ n := by omega
      have h2 : n ≤ 122 := by omega
      interval_cases n <;> decide
    have hc : isWsChar c = false := by
      simp only [isWsChar, jsWhitespaceCodes]
      generalize hg : c.toNat = n at hcond
      have h1 : 65 ≤ n := hcond.1
      have h2 : n ≤ 90 := hcond.2
      interval_cases n <;> decide
    rw [hlow, hc]
  · rfl

theorem dropWhile_ws_lowerL (l : List Char) :
    (lowerL l).dropWhile isWsChar = lowerL (l.dropWhile isWsChar) := by
  induction l with
  | nil => simp [lowerL]
  | cons c rest ih =>
    by_cases h : isWsChar c = true
    · have h2 : isWsChar (jsToLower c) = true := by rw [isWsChar_jsToLower]; exact h
      simp [lowerL, List.dropWhile, h, h2] at ih ⊢
      exact ih
    · have hf : isWsChar c = false := by simpa using h
      have h2 : isWsChar (jsToLower c) = false := by
        rw [isWsChar_jsToLower]; exact hf
      simp [lowerL, List.dropWhile, h2, hf]

theorem trimL_lowerL (l : List Char) : trimL (lowerL l) = lowerL (trimL l) := by
  unfold trimL
  rw [dropWhile_ws_lowerL]
  have hrev : ∀ m : List Char, (lowerL m).reverse = lowerL m.reverse := by
    intro m
    simp [lowerL, List.map_reverse]
  rw [hrev, dropWhile_ws_lowerL, hrev]

theorem carTok_sep_free : ∀ c ∈ carTok, isRoleSep c = false := by decide

theorem companyTok_sep_free : ∀ c ∈ companyTok, isRoleSep c = false := by decide

theorem ws_free_of_sep_free {c : Char} (h : isRoleSep c = false) :
    isWsChar c = false := by
  have := h
  unfold isRoleSep at this
  simp only [Bool.or_eq_false_iff] at this
  exact this.1

/-- Normalized role string of the login portal contains every
separator-free token that the lower-cased input contains. -/
theorem containsTok_normalized_login (p s : List Char)
    (hp : ∀ c ∈ p, isRoleSep c = false)
    (h : containsTok p (lowerL s) = true) :
    containsTok p (loginNormalized s) = true := by
  have hpw : ∀ c ∈ p, isWsChar c = false := fun c hc => ws_free_of_sep_free (hp c hc)
  have h1 : containsTok p (trimL (lowerL s)) = true :=
    containsTok_trimL p hpw (lowerL s) h
  rw [trimL_lowerL] at h1
  exact containsTok_collapseRunsAux isRoleSep '_' p hp _ false h1

/-- Same statement for the insurance portal, whose normalizer lower-cases
before trimming. -/
theorem containsTok_normalized_app (p s : List Char)
    (hp : ∀ c ∈ p, isRoleSep c = false)
    (h : containsTok p (lowerL s) = true) :
    containsTok p (appNormalized s) = true := by
  have hpw : ∀ c ∈ p, isWsChar c = false := fun c hc => ws_free_of_sep_free (hp c hc)
  have h1 : containsTok p (trimL (lowerL s)) = true :=
    containsTok_trimL p hpw (lowerL s) h
  exact containsTok_collapseRunsAux isRoleSep '_' p hp _ false h1

/-- C8 (amended): any input whose lower-cased text contains the tokens car
and company (hence any case, order, and space/hyphen/underscore separator
mix) is normalized to the canonical car_company role by both portals; and
on every input each normalizer returns one of the canonical roles, a fixed
route-table key, a truthy property name inherited from Object.prototype
(the route-table fallback is a prototype-chain property read), or null. -/
theorem c8_role_normalizer (s : List Char)
    (hcar : containsTok carTok (lowerL s) = true)
    (hcom : containsTok companyTok (lowerL s) = true) :
    (normalizeRoleLogin s = some carCompanyRole ∧
     normalizeRoleApp s = some carCompanyRole)
    ∧ (∀ t : List Char,
        (normalizeRoleLogin t = none ∨ normalizeRoleLogin t = some carCompanyRole ∨
         normalizeRoleLogin t = some insuranceCompanyRole ∨
         normalizeRoleLogin t = some adminRole ∨
         (∃ k ∈ loginRoleRouteKeys, normalizeRoleLogin t = some k) ∨
         (∃ k ∈ objectPrototypeKeys, normalizeRoleLogin t = some k))
        ∧ (normalizeRoleApp t = none ∨ normalizeRoleApp t = some carCompanyRole ∨
           normalizeRoleApp t = some insuranceCompanyRole ∨
           (∃ k ∈ appRoleRouteKeys, normalizeRoleApp t = some k) ∨
           (∃ k ∈ objectPrototypeKeys, normalizeRoleApp t = some k))) := by
  have hs : s.isEmpty = false := by
    cases s with
    | nil => simp [lowerL, containsTok, carTok, begWith] at hcar
    | cons a as => rfl
  constructor
  · constructor
    · have h1 := containsTok_normalized_login carTok s carTok_sep_free hcar
      have h2 := containsTok_normalized_login companyTok s companyTok_sep_free hcom
      simp [normalizeRoleLogin, hs, h1, h2]
    · have h1 := containsTok_normalized_app carTok s carTok_sep_free hcar
      have h2 := containsTok_normalized_app companyTok s companyTok_sep_free hcom
      simp [normalizeRoleApp, hs, h1, h2]
  · intro t
    constructor
    · unfold normalizeRoleLogin
      split
      · exact Or.inl rfl
      · split
        · exact Or.inr (Or.inl rfl)
        · split
          · exact Or.inr (Or.inr (Or.inl rfl))
          · split
            · exact Or.inr (Or.inr (Or.inr (Or.inl rfl)))
            · split
              · rename_i hmem
                have hm : loginNormalized t ∈ loginRoleRouteKeys ∨
                    loginNormalized t ∈ objectPrototypeKeys := by
                  simpa [roleRouteHit] using hmem
                rcases hm with hm | hm
                · exact Or.inr (Or.inr (Or.inr (Or.inr (Or.inl ⟨_, hm, rfl⟩))))
                · exact Or.inr (Or.inr (Or.inr (Or.inr (Or.inr ⟨_, hm, rfl⟩))))
              · exact Or.inl rfl
    · unfold normalizeRoleApp
      split
      · exact Or.inl rfl
      · split
        · exact Or.inr (Or.inl rfl)
        · split
          · exact Or.inr (Or.inr (Or.inl rfl))
          · split
            · rename_i hmem
              have hm : appNormalized t ∈ appRoleRouteKeys ∨
                  appNormalized t ∈ objectPrototypeKeys := by
                simpa [roleRouteHit] using hmem
              rcases hm with hm | hm
              · exact Or.inr (Or.inr (Or.inr (Or.inl ⟨_, hm, rfl⟩)))
              · exact Or.inr (Or.inr (Or.inr (Or.inr ⟨_, hm, rfl⟩)))
            · exact Or.inl rfl

/-- C8 counterexample: the route-table fallback is a JavaScript property
read that traverses the prototype chain, so the input constructor is
returned as itself by both normalizers — a value outside the closed set
named by the claim (canonical roles, fixed route-table keys, or null). -/
theorem c8_role_normalizer_counterexample :
    normalizeRoleLogin ("constructor".toList) = some ("constructor".toList) ∧
    normalizeRoleApp ("constructor".toList) = some ("constructor".toList) ∧
    ¬(normalizeRoleLogin ("constructor".toList) = none ∨
      normalizeRoleLogin ("constructor".toList) = some carCompanyRole ∨
      normalizeRoleLogin ("constructor".toList) = some insuranceCompanyRole ∨
      normalizeRoleLogin ("constructor".toList) = some adminRole ∨
      ∃ k ∈ loginRoleRouteKeys, normalizeRoleLogin ("constructor".toList) = some k) ∧
    ¬(normalizeRoleApp ("constructor".toList) = none ∨
      normalizeRoleApp ("constructor".toList) = some carCompanyRole ∨
      normalizeRoleApp ("constructor".toList) = some insuranceCompanyRole ∨
      ∃ k ∈ appRoleRouteKeys, normalizeRoleApp ("constructor".toList) = some k) := by
  decide

/-- Concrete instantiation of the C8 theorem at the input Car-Company. -/
theorem c8_role_normalizer_witness :
    containsTok carTok (lowerL ("Car-Company".toList)) = true ∧
    containsTok companyTok (lowerL ("Car-Company".toList)) = true ∧
    normalizeRoleLogin ("Car-Company".toList) = some carCompanyRole ∧
    normalizeRoleApp ("Car-Company".toList) = some carCompanyRole :=
  ⟨by decide, by decide,
   (c8_role_normalizer ("Car-Company".toList) (by decide) (by decide)).1.1,
   (c8_role_normalizer ("Car-Company".toList) (by decide) (by decide)).1.2⟩

/-!
Data model: rows of the documents and claims tables as seen by the two
review portals.  Nullable text columns are Option values; a JavaScript
truthiness test on such a column is true exactly for a non-null, non-empty
string.  Nullable boolean columns are Option Bool; a strict comparison with
true holds only for the value true.
-/

/-- A documents-table row (the columns the portals read or write). -/
structure Document where
  id : Nat
  dtype : List Char
  verified_by_car_company : Bool
  verified_by_insurance_company : Bool
  car_company_verification_date : Option (List Char)
  insurance_verification_date : Option (List Char)
  car_company_verification_notes : Option (List Char)
  insurance_verification_notes : Option (List Char)
  car_company_verified_by : Option (List Char)
  insurance_verified_by : Option (List Char)
deriving DecidableEq

/-- A claims-table row joined with its documents. -/
structure ClaimRec where
  id : Nat
  user_id : Option Nat
  status : Option (List Char)
  car_company_status : Option (List Char)
  is_approved_by_car_company : Option Bool
  car_company_approval_date : Option (List Char)
  car_company_approval_notes : Option (List Char)
  is_approved_by_insurance_company : Option Bool
  insurance_company_approval_date : Option (List Char)
  insurance_company_approval_notes : Option (List Char)
  rejected_at : Option (List Char)
  approved_at : Option (List Char)
  documents : List Document
deriving DecidableEq

/-- JavaScript truthiness of a nullable string column. -/
def optStrTruthy : Option (List Char) → Bool
  | none => false
  | some s => !s.isEmpty

/-- CAR_COMPANY_DOCUMENT_TYPES in src/public/login.js (ten types). -/
def carTypesLogin : List (List Char) :=
  ["lto_or".toList, "lto_cr".toList, "drivers_license".toList,
   "owner_valid_id".toList, "stencil_strips".toList, "damage_photos".toList,
   "job_estimate".toList, "insurance_policy".toList, "police_report".toList,
   "additional_documents".toList]

/-- CAR_COMPANY_DOCUMENT_TYPES in src/public/insurance-company/app.js
(seven types only). -/
def carTypesApp : List (List Char) :=
  ["lto_or".toList, "lto_cr".toList, "drivers_license".toList,
   "owner_valid_id".toList, "stencil_strips".toList, "damage_photos".toList,
   "job_estimate".toList]

/-- INSURANCE_DOCUMENT_TYPES in src/public/insurance-company/app.js. -/
def insuranceTypesApp : List (List Char) :=
  ["lto_or".toList, "lto_cr".toList, "drivers_license".toList,
   "owner_valid_id".toList, "stencil_strips".toList, "damage_photos".toList,
   "job_estimate".toList, "insurance_policy".toList, "police_report".toList,
   "additional_documents".toList]

def approvedStr : List Char := "approved".toList

def pendingStr : List Char := "pending".toList

def rejectedStr : List Char := "rejected".toList

/-!
Consistency sweep of loadClaims in src/public/login.js: claims flagged
approved whose car-company-relevant documents are not all verified are
collected and reverted to pending in one update over the collected ids.
-/

/-- The isApproved test of the sweep. -/
def sweepIsApproved (c : ClaimRec) : Bool :=
  decide (c.car_company_status = some approvedStr) ||
  decide (c.is_approved_by_car_company = some true)

/-- The hasUnverifiedDocs test of the sweep: some document of a
car-company-relevant type is not verified by the car company.  The
claim.documents truthiness guard of the source is always satisfied here
because the joined select always yields an array (possibly empty), and
arrays are truthy. -/
def hasUnverifiedCarDocs (c : ClaimRec) : Bool :=
  c.documents.any fun d =>
    carTypesLogin.contains d.dtype && !d.verified_by_car_company

/-- Whether the sweep pushes this claim onto claimsToRevert. -/
def sweepShouldRevert (c : ClaimRec) : Bool :=
  sweepIsApproved c && hasUnverifiedCarDocs c

/-- The claimsToRevert id list collected by the sweep. -/
def claimsToRevert (cs : List ClaimRec) : List Nat :=
  (cs.filter sweepShouldRevert).map ClaimRec.id

/-- The update payload applied to each reverted claim. -/
def revertUpdate (c : ClaimRec) : ClaimRec :=
  { c with car_company_status := some pendingStr,
           is_approved_by_car_company := some false,
           car_company_approval_date := none }

/-- Effect of the sweep on the claims table: every row whose id is in the
collected list receives the revert update. -/
def sweepClaims (cs : List ClaimRec) : List ClaimRec :=
  cs.map fun c => if c.id ∈ claimsToRevert cs then revertUpdate c else c

/-- Default documents-table row used to build concrete test rows. -/
def doc0 : Document :=
  { id := 0, dtype := "damage_photos".toList,
    verified_by_car_company := false, verified_by_insurance_company := false,
    car_company_verification_date := none, insurance_verification_date := none,
    car_company_verification_notes := none, insurance_verification_notes := none,
    car_company_verified_by := none, insurance_verified_by := none }

/-- Default claims-table row used to build concrete test rows. -/
def claim0 : ClaimRec :=
  { id := 0, user_id := none, status := none, car_company_status := none,
    is_approved_by_car_company := none, car_company_approval_date := none,
    car_company_approval_notes := none, is_approved_by_insurance_company := none,
    insurance_company_approval_date := none, insurance_company_approval_notes := none,
    rejected_at := none, approved_at := none, documents := [] }

/-- The boolean revert test of the sweep in propositional form. -/
theorem sweepShouldRevert_iff (c : ClaimRec) :
    sweepShouldRevert c = true ↔
      (c.car_company_status = some approvedStr ∨
       c.is_approved_by_car_company = some true) ∧
      (∃ d ∈ c.documents, d.dtype ∈ carTypesLogin ∧
        d.verified_by_car_company = false) := by
  unfold sweepShouldRevert sweepIsApproved hasUnverifiedCarDocs
  simp [List.any_eq_true]

theorem mem_claimsToRevert_of {c : ClaimRec} {cs : List ClaimRec}
    (hc : c ∈ cs) (h : sweepShouldRevert c = true) :
    c.id ∈ claimsToRevert cs := by
  unfold claimsToRevert
  exact List.mem_map_of_mem _ (List.mem_filter.mpr ⟨hc, h⟩)

theorem sweepShouldRevert_revertUpdate (c : ClaimRec) :
    sweepShouldRevert (revertUpdate c) = false := by
  have h1 : decide ((revertUpdate c).car_company_status = some approvedStr) = false := by
    simp [revertUpdate, pendingStr, approvedStr]
  have h2 : decide ((revertUpdate c).is_approved_by_car_company = some true) = false := by
    simp [revertUpdate]
  unfold sweepShouldRevert sweepIsApproved
  rw [h1, h2]
  rfl

/-- C2: the sweep reverts exactly the claims that are flagged approved and
still carry an unverified car-company-relevant document, setting their
car_company_status to pending, is_approved_by_car_company to false and
car_company_approval_date to null, and leaves every other claim unchanged
(stated for lists with distinct row ids, as in the database). -/
theorem c2_sweep_reverts_exactly (cs : List ClaimRec)
    (hnodup : (cs.map ClaimRec.id).Nodup) :
    sweepClaims cs = cs.map (fun c =>
      if (c.car_company_status = some approvedStr ∨
          c.is_approved_by_car_company = some true) ∧
         (∃ d ∈ c.documents, d.dtype ∈ carTypesLogin ∧
           d.verified_by_car_company = false)
      then { c with car_company_status := some pendingStr,
                    is_approved_by_car_company := some false,
                    car_company_approval_date := none }
      else c) := by
  unfold sweepClaims
  apply List.map_congr_left
  intro c hc
  by_cases h : sweepShouldRevert c = true
  · have hid : c.id ∈ claimsToRevert cs := mem_claimsToRevert_of hc h
    rw [if_pos hid, if_pos ((sweepShouldRevert_iff c).mp h)]
    rfl
  · have hP := fun hp => h ((sweepShouldRevert_iff c).mpr hp)
    have hid : c.id ∉ claimsToRevert cs := by
      intro hmem
      unfold claimsToRevert at hmem
      rcases List.mem_map.mp hmem with ⟨c', hc', hide⟩
      have hc'2 := List.mem_filter.mp hc'
      have heq : c' = c := List.inj_on_of_nodup_map hnodup hc'2.1 hc hide
      exact h (heq ▸ hc'2.2)
    rw [if_neg hid, if_neg hP]

def c2DocBad : Document :=
  { doc0 with id := 1, dtype := "lto_or".toList, verified_by_car_company := false }

def c2DocGood : Document :=
  { doc0 with id := 2, dtype := "lto_or".toList, verified_by_car_company := true }

def c2ClaimBad : ClaimRec :=
  { claim0 with id := 1, car_company_status := some approvedStr,
                documents := [c2DocBad] }

def c2ClaimGood : ClaimRec :=
  { claim0 with id := 2, car_company_status := some approvedStr,
                documents := [c2DocGood] }

/-- Concrete instantiation of the C2 theorem on a two-claim list. -/
theorem c2_sweep_reverts_exactly_witness :
    ([c2ClaimBad, c2ClaimGood].map ClaimRec.id).Nodup ∧
    sweepClaims [c2ClaimBad, c2ClaimGood] =
      [c2ClaimBad, c2ClaimGood].map (fun c =>
        if (c.car_company_status = some approvedStr ∨
            c.is_approved_by_car_company = some true) ∧
           (∃ d ∈ c.documents, d.dtype ∈ carTypesLogin ∧
             d.verified_by_car_company = false)
        then { c with car_company_status := some pendingStr,
                      is_approved_by_car_company := some false,
                      car_company_approval_date := none }
        else c) :=
  ⟨by decide, c2_sweep_reverts_exactly [c2ClaimBad, c2ClaimGood] (by decide)⟩

/-- After a sweep, no claim still satisfies the revert test. -/
theorem sweepShouldRevert_after_sweep (cs : List ClaimRec) :
    ∀ c ∈ sweepClaims cs, sweepShouldRevert c = false := by
  intro c hc
  unfold sweepClaims at hc
  rcases List.mem_map.mp hc with ⟨c0, hc0, rfl⟩
  by_cases hid : c0.id ∈ claimsToRevert cs
  · rw [if_pos hid]
    exact sweepShouldRevert_revertUpdate c0
  · rw [if_neg hid]
    by_contra hcon
    have h' : sweepShouldRevert c0 = true := by simpa using hcon
    exact hid (mem_claimsToRevert_of hc0 h')

/-- C6: the consistency sweep is idempotent: sweeping a second time changes
nothing, and a second run over the swept data computes an empty revert
set. -/
theorem c6_sweep_idempotent (cs : List ClaimRec) :
    sweepClaims (sweepClaims cs) = sweepClaims cs ∧
    claimsToRevert (sweepClaims cs) = [] := by
  have hempty : claimsToRevert (sweepClaims cs) = [] := by
    unfold claimsToRevert
    have : (sweepClaims cs).filter sweepShouldRevert = [] := by
      rw [List.filter_eq_nil_iff]
      intro c hc
      simp [sweepShouldRevert_after_sweep cs c hc]
    rw [this]
    rfl
  refine ⟨?_, hempty⟩
  conv_lhs => rw [sweepClaims, hempty]
  simp

/-!
Per-claim aggregate counters computed during list load: the car portal
counts a document as rejected only when it is not verified, the insurance
portal counts any document with a rejection note.
-/

/-- carCompanyDocs of a claim in the car portal loadClaims. -/
def carCompanyDocsOf (c : ClaimRec) : List Document :=
  c.documents.filter fun d => carTypesLogin.contains d.dtype

def totalCarCompanyDocs (c : ClaimRec) : Nat := (carCompanyDocsOf c).length

def verifiedCarCompanyDocs (c : ClaimRec) : Nat :=
  ((carCompanyDocsOf c).filter fun d => d.verified_by_car_company).length

/-- Rejected means not verified and carrying a truthy rejection note. -/
def rejectedCarCompanyDocs (c : ClaimRec) : Nat :=
  ((carCompanyDocsOf c).filter fun d =>
    !d.verified_by_car_company &&
    optStrTruthy d.car_company_verification_notes).length

/-- pendingCarCompanyDocs, computed by JavaScript number subtraction. -/
def pendingCarCompanyDocs (c : ClaimRec) : Int :=
  (totalCarCompanyDocs c : Int) - verifiedCarCompanyDocs c - rejectedCarCompanyDocs c

/-- insuranceDocs of a claim in the insurance portal loadClaims. -/
def insuranceDocsOf (c : ClaimRec) : List Document :=
  c.documents.filter fun d => insuranceTypesApp.contains d.dtype

def totalInsuranceDocs (c : ClaimRec) : Nat := (insuranceDocsOf c).length

def verifiedInsuranceDocs (c : ClaimRec) : Nat :=
  ((insuranceDocsOf c).filter fun d => d.verified_by_insurance_company).length

/-- The insurance portal counts any document with a truthy rejection note,
verified or not. -/
def rejectedInsuranceDocs (c : ClaimRec) : Nat :=
  ((insuranceDocsOf c).filter fun d =>
    optStrTruthy d.insurance_verification_notes).length

def pendingInsuranceDocs (c : ClaimRec) : Int :=
  (totalInsuranceDocs c : Int) - verifiedInsuranceDocs c - rejectedInsuranceDocs c

/-- Counting two mutually exclusive predicates never exceeds the length. -/
theorem filter_disjoint_length_le {α : Type} (p q : α → Bool) :
    ∀ l : List α, (∀ x ∈ l, ¬(p x = true ∧ q x = true)) →
      (l.filter p).length + (l.filter q).length ≤ l.length := by
  intro l
  induction l with
  | nil => intro _; simp
  | cons a t ih =>
    intro h
    have ha := h a (List.mem_cons_self a t)
    have ht : ∀ x ∈ t, ¬(p x = true ∧ q x = true) :=
      fun x hx => h x (List.mem_cons_of_mem a hx)
    have iht := ih ht
    rw [List.filter_cons, List.filter_cons]
    by_cases hp : p a = true
    · have hq : q a = false := by
        cases hqv : q a
        · rfl
        · exact absurd ⟨hp, hqv⟩ ha
      rw [if_pos (by simp [hp]), if_neg (by simp [hq])]
      simp only [List.length_cons]
      omega
    · have hp' : p a = false := by simpa using hp
      rw [if_neg (by simp [hp'])]
      by_cases hq : q a = true
      · rw [if_pos (by simp [hq])]
        simp only [List.length_cons]
        omega
      · have hq' : q a = false := by simpa using hq
        rw [if_neg (by simp [hq'])]
        simp only [List.length_cons]
        omega

/-- C4 (amended): in the car portal the four counters always partition the
relevant documents and are non-negative; in the insurance portal this holds
provided no document is simultaneously insurance-verified and carrying a
rejection note (otherwise the pending counter goes negative). -/
theorem c4_counters (c : ClaimRec) :
    (0 ≤ (totalCarCompanyDocs c : Int) ∧ 0 ≤ (verifiedCarCompanyDocs c : Int) ∧
     0 ≤ (rejectedCarCompanyDocs c : Int) ∧ 0 ≤ pendingCarCompanyDocs c ∧
     (totalCarCompanyDocs c : Int) =
       (verifiedCarCompanyDocs c : Int) + rejectedCarCompanyDocs c +
         pendingCarCompanyDocs c)
    ∧ ((∀ d ∈ c.documents, ¬(d.verified_by_insurance_company = true ∧
          optStrTruthy d.insurance_verification_notes = true)) →
        0 ≤ (totalInsuranceDocs c : Int) ∧ 0 ≤ (verifiedInsuranceDocs c : Int) ∧
        0 ≤ (rejectedInsuranceDocs c : Int) ∧ 0 ≤ pendingInsuranceDocs c ∧
        (totalInsuranceDocs c : Int) =
          (verifiedInsuranceDocs c : Int) + rejectedInsuranceDocs c +
            pendingInsuranceDocs c) := by
  constructor
  · have hdisj : ∀ d ∈ carCompanyDocsOf c,
        ¬((fun d => d.verified_by_car_company) d = true ∧
          (fun d => !d.verified_by_car_company &&
            optStrTruthy d.car_company_verification_notes) d = true) := by
      intro d _ hcon
      rcases hcon with ⟨h1, h2⟩
      simp [h1] at h2
    have hle := filter_disjoint_length_le _ _ (carCompanyDocsOf c) hdisj
    unfold pendingCarCompanyDocs
    unfold totalCarCompanyDocs verifiedCarCompanyDocs rejectedCarCompanyDocs at *
    refine ⟨by positivity, by positivity, by positivity, by omega, by omega⟩
  · intro hmut
    have hdisj : ∀ d ∈ insuranceDocsOf c,
        ¬((fun d => d.verified_by_insurance_company) d = true ∧
          (fun d => optStrTruthy d.insurance_verification_notes) d = true) := by
      intro d hd
      exact hmut d (List.mem_filter.mp hd).1
    have hle := filter_disjoint_length_le _ _ (insuranceDocsOf c) hdisj
    unfold pendingInsuranceDocs
    unfold totalInsuranceDocs verifiedInsuranceDocs rejectedInsuranceDocs at *
    refine ⟨by positivity, by positivity, by positivity, by omega, by omega⟩

def c4BadDoc : Document :=
  { doc0 with verified_by_insurance_company := true,
              insurance_verification_notes := some ("document_expired".toList) }

def c4BadClaim : ClaimRec := { claim0 with documents := [c4BadDoc] }

/-- C4 counterexample: one document that is insurance-verified and also
holds a rejection note makes the insurance pending counter equal -1, so
the counters are not all non-negative as the claim states. -/
theorem c4_counters_counterexample :
    pendingInsuranceDocs c4BadClaim = -1 ∧
    ¬(0 ≤ pendingInsuranceDocs c4BadClaim) := by decide

def c4GoodClaim : ClaimRec := { claim0 with documents := [doc0] }

/-- Concrete instantiation of the C4 theorem. -/
theorem c4_counters_witness :
    (∀ d ∈ c4GoodClaim.documents, ¬(d.verified_by_insurance_company = true ∧
      optStrTruthy d.insurance_verification_notes = true)) ∧
    0 ≤ pendingInsuranceDocs c4GoodClaim :=
  ⟨by decide, (((c4_counters c4GoodClaim).2 (by decide)).2.2.2).1⟩

/-!
Approve-control gating.  The car portal fetches a claim's documents with a
type filter restricted to the car-company list and enables the approve
button only when that list is non-empty, fully verified, and the claim's
approval flag is not set.  The insurance portal keeps its approval actions
row hidden for decided claims and disables the approve button unless every
insurance-relevant document is verified.
-/

/-- Documents fetched for the car portal detail view (the select restricts
type to CAR_COMPANY_DOCUMENT_TYPES). -/
def carFetchDocs (docs : List Document) : List Document :=
  docs.filter fun d => carTypesLogin.contains d.dtype

/-- allDocsVerified of setDecisionButtonsState in src/public/login.js. -/
def carAllDocsVerified (docs : List Document) : Bool :=
  decide (0 < docs.length) && docs.all fun d => d.verified_by_car_company

/-- approveBtn.disabled in the car portal: not all documents verified, or
the claim is already flagged approved by the car company. -/
def carApproveDisabled (docs : List Document) (flag : Option Bool) : Bool :=
  !carAllDocsVerified docs || decide (flag = some true)

/-- allVerified of updateApprovalButtonStatus in the insurance portal. -/
def insAllVerified (docs : List Document) : Bool :=
  decide (0 < docs.length) && docs.all fun d => d.verified_by_insurance_company

/-- approveBtn.disabled in the insurance portal. -/
def insApproveBtnDisabled (docs : List Document) : Bool := !insAllVerified docs

/-- currentClaimApproved in the insurance portal: overall status approved
or rejected makes the claim view-only. -/
def insClaimViewOnly (c : ClaimRec) : Bool :=
  decide (c.status = some approvedStr) || decide (c.status = some rejectedStr)

/-- Visibility of the approvalActionsRow as set by
updateApprovalButtonStatus: shown only while the claim is undecided and no
document viewer modal is open. -/
def insActionsRowShown (viewOnly isModalOpen : Bool) : Bool :=
  !viewOnly && !isModalOpen

/-- The insurance documents handed to updateApprovalButtonStatus: all claim
documents filtered by INSURANCE_DOCUMENT_TYPES. -/
def insFetchDocs (docs : List Document) : List Document :=
  docs.filter fun d => insuranceTypesApp.contains d.dtype

/-- The approve control is usable when its row is displayed and the button
itself is not disabled. -/
def insApproveControlUsable (c : ClaimRec) (docs : List Document)
    (isModalOpen : Bool) : Bool :=
  insActionsRowShown (insClaimViewOnly c) isModalOpen &&
  !insApproveBtnDisabled docs

/-- C1: the approve control is enabled only when every relevant document is
verified by the respective reviewer and the claim is not already decided,
and one unverified relevant document disables it, in both portals. -/
theorem c1_approve_gating (docs : List Document) (flag : Option Bool)
    (c : ClaimRec) (isModalOpen : Bool) :
    (carApproveDisabled (carFetchDocs docs) flag = false →
      carFetchDocs docs ≠ [] ∧
      (∀ d ∈ carFetchDocs docs, d.verified_by_car_company = true) ∧
      flag ≠ some true)
    ∧ ((∃ d ∈ carFetchDocs docs, d.verified_by_car_company = false) →
        carApproveDisabled (carFetchDocs docs) flag = true)
    ∧ (insApproveControlUsable c (insFetchDocs docs) isModalOpen = true →
        insFetchDocs docs ≠ [] ∧
        (∀ d ∈ insFetchDocs docs, d.verified_by_insurance_company = true) ∧
        insClaimViewOnly c = false)
    ∧ ((∃ d ∈ insFetchDocs docs, d.verified_by_insurance_company = false) →
        insApproveBtnDisabled (insFetchDocs docs) = true) := by
  refine ⟨?_, ?_, ?_, ?_⟩
  · intro h
    unfold carApproveDisabled carAllDocsVerified at h
    simp only [Bool.or_eq_false_iff, Bool.not_eq_false', Bool.and_eq_true,
      decide_eq_true_eq, decide_eq_false_iff_not, List.all_eq_true] at h
    refine ⟨?_, h.1.2, h.2⟩
    intro hnil
    rw [hnil] at h
    simp at h
  · intro ⟨d, hd, hv⟩
    unfold carApproveDisabled carAllDocsVerified
    have : (carFetchDocs docs).all (fun d => d.verified_by_car_company) = false := by
      rw [List.all_eq_false]
      exact ⟨d, hd, by simp [hv]⟩
    simp [this]
  · intro h
    unfold insApproveControlUsable insActionsRowShown insApproveBtnDisabled
      insAllVerified at h
    simp only [Bool.and_eq_true, Bool.not_eq_true', Bool.not_eq_false',
      decide_eq_true_eq, List.all_eq_true] at h
    refine ⟨?_, h.2.2, h.1.1⟩
    intro hnil
    rw [hnil] at h
    simp at h
  · intro ⟨d, hd, hv⟩
    unfold insApproveBtnDisabled insAllVerified
    have : (insFetchDocs docs).all (fun d => d.verified_by_insurance_company) = false := by
      rw [List.all_eq_false]
      exact ⟨d, hd, by simp [hv]⟩
    simp [this]

def c1DocVer : Document :=
  { doc0 with dtype := "lto_or".toList, verified_by_car_company := true,
              verified_by_insurance_company := true }

/-- Concrete instantiations of the C1 theorem: a fully verified single
document enables approval in both portals, an unverified one disables it. -/
theorem c1_approve_gating_witness :
    (carFetchDocs [c1DocVer] ≠ [] ∧
     (∀ d ∈ carFetchDocs [c1DocVer], d.verified_by_car_company = true) ∧
     (none : Option Bool) ≠ some true) ∧
    (insFetchDocs [c1DocVer] ≠ [] ∧
     (∀ d ∈ insFetchDocs [c1DocVer], d.verified_by_insurance_company = true) ∧
     insClaimViewOnly claim0 = false) ∧
    carApproveDisabled (carFetchDocs [doc0]) none = true ∧
    insApproveBtnDisabled (insFetchDocs [doc0]) = true :=
  ⟨(c1_approve_gating [c1DocVer] none claim0 false).1 (by decide),
   (c1_approve_gating [c1DocVer] none claim0 false).2.2.1 (by decide),
   (c1_approve_gating [doc0] none claim0 false).2.1 (by decide),
   (c1_approve_gating [doc0] none claim0 false).2.2.2 (by decide)⟩

/-- C9: with an empty relevant document list the all-verified predicate of
both portals is false rather than vacuously true, so the approve control
remains disabled in the car portal and unusable in the insurance portal. -/
theorem c9_empty_docs_disabled :
    carAllDocsVerified [] = false ∧ insAllVerified [] = false ∧
    (∀ flag : Option Bool, carApproveDisabled [] flag = true) ∧
    (∀ (c : ClaimRec) (m : Bool), insApproveControlUsable c [] m = false) := by
  refine ⟨rfl, rfl, fun flag => rfl, fun c m => ?_⟩
  unfold insApproveControlUsable insApproveBtnDisabled insAllVerified
  simp

/-- Concrete corollary of the C9 theorem. -/
theorem c9_empty_docs_disabled_witness :
    carAllDocsVerified [] = false ∧ carApproveDisabled [] none = true :=
  ⟨c9_empty_docs_disabled.1, c9_empty_docs_disabled.2.2.1 none⟩

/-!
Insurance-portal eligibility: loadClaims lists only claims whose
car-company-relevant documents (by the insurance portal's own, smaller
car-type list) all carry car-company verification, and
viewClaimDocuments re-checks the same condition before opening the
documents page, showing an error otherwise.
-/

/-- carCompanyDocs as computed inside the insurance portal. -/
def carDocsApp (c : ClaimRec) : List Document :=
  c.documents.filter fun d => carTypesApp.contains d.dtype

/-- The eligibility filter of the insurance loadClaims: no car-company
documents means not eligible, otherwise all of them must be verified. -/
def insuranceEligible (c : ClaimRec) : Bool :=
  if (carDocsApp c).length = 0 then false
  else (carDocsApp c).all fun d => d.verified_by_car_company

/-- The allCarDocsVerified guard of viewClaimDocuments. -/
def viewAllCarDocsVerified (c : ClaimRec) : Bool :=
  decide (0 < (carDocsApp c).length) &&
  (carDocsApp c).all fun d => d.verified_by_car_company

/-- What viewClaimDocuments shows for a fetched claim. -/
inductive ViewOutcome where
  | documentsPage
  | notReadyError
deriving DecidableEq

/-- viewClaimDocuments either opens the documents page or shows the
not-ready error. -/
def viewClaimDocumentsOutcome (c : ClaimRec) : ViewOutcome :=
  if viewAllCarDocsVerified c then ViewOutcome.documentsPage
  else ViewOutcome.notReadyError

/-- The eligibility test, propositionally. -/
theorem insuranceEligible_iff (c : ClaimRec) :
    insuranceEligible c = true ↔
      (∃ d ∈ c.documents, d.dtype ∈ carTypesApp) ∧
      (∀ d ∈ c.documents, d.dtype ∈ carTypesApp →
        d.verified_by_car_company = true) := by
  unfold insuranceEligible
  by_cases h0 : (carDocsApp c).length = 0
  · rw [if_pos h0]
    have hnil : carDocsApp c = [] := List.length_eq_zero.mp h0
    constructor
    · intro hfalse
      exact absurd hfalse (by simp)
    · rintro ⟨⟨d, hd, hdt⟩, _⟩
      have : d ∈ carDocsApp c :=
        List.mem_filter.mpr ⟨hd, by simpa using hdt⟩
      rw [hnil] at this
      exact absurd this (List.not_mem_nil d)
  · rw [if_neg h0]
    constructor
    · intro hall
      rw [List.all_eq_true] at hall
      constructor
      · have hne : carDocsApp c ≠ [] := by
          intro hnil
          exact h0 (by rw [hnil]; rfl)
        obtain ⟨d, hd⟩ := List.exists_mem_of_ne_nil _ hne
        have hmf := List.mem_filter.mp hd
        exact ⟨d, hmf.1, by simpa using hmf.2⟩
      · intro d hd hdt
        have : d ∈ carDocsApp c :=
          List.mem_filter.mpr ⟨hd, by simpa using hdt⟩
        simpa using hall d this
    · rintro ⟨_, hall⟩
      rw [List.all_eq_true]
      intro d hd
      have hmf := List.mem_filter.mp hd
      simpa using hall d hmf.1 (by simpa using hmf.2)

/-- The viewClaimDocuments guard, propositionally; it is the same
condition as the eligibility filter. -/
theorem viewAllCarDocsVerified_iff (c : ClaimRec) :
    viewAllCarDocsVerified c = true ↔ insuranceEligible c = true := by
  unfold viewAllCarDocsVerified insuranceEligible
  by_cases h0 : (carDocsApp c).length = 0
  · rw [if_pos h0]
    simp [h0]
  · rw [if_neg h0]
    simp only [Bool.and_eq_true, decide_eq_true_eq]
    constructor
    · intro h
      exact h.2
    · intro h
      exact ⟨by omega, h⟩

/-- C5: the insurance portal lists exactly the fetched claims that have at
least one car-company-relevant document with every such document verified
by the car company, and opening a claim shows the documents page exactly
under the same condition (an error otherwise). -/
theorem c5_insurance_listing (claims : List ClaimRec) (c : ClaimRec) :
    (c ∈ claims.filter insuranceEligible ↔
      c ∈ claims ∧
      (∃ d ∈ c.documents, d.dtype ∈ carTypesApp) ∧
      (∀ d ∈ c.documents, d.dtype ∈ carTypesApp →
        d.verified_by_car_company = true))
    ∧ (viewClaimDocumentsOutcome c = ViewOutcome.documentsPage ↔
        (∃ d ∈ c.documents, d.dtype ∈ carTypesApp) ∧
        (∀ d ∈ c.documents, d.dtype ∈ carTypesApp →
          d.verified_by_car_company = true)) := by
  constructor
  · rw [List.mem_filter, insuranceEligible_iff, and_congr_right_iff]
    intro _
    rfl
  · unfold viewClaimDocumentsOutcome
    by_cases hv : viewAllCarDocsVerified c = true
    · rw [if_pos hv]
      simp only [true_iff]
      exact (insuranceEligible_iff c).mp ((viewAllCarDocsVerified_iff c).mp hv)
    · rw [if_neg hv]
      constructor
      · intro h
        exact absurd h (by simp)
      · intro hcond
        exact absurd ((viewAllCarDocsVerified_iff c).mpr
          ((insuranceEligible_iff c).mpr hcond)) hv

def c5Claim : ClaimRec := { claim0 with id := 5, documents := [c1DocVer] }

/-- Concrete corollary of the C5 theorem: an eligible claim is listed. -/
theorem c5_insurance_listing_witness :
    c5Claim ∈ [c5Claim].filter insuranceEligible ∧
    viewClaimDocumentsOutcome c5Claim = ViewOutcome.documentsPage :=
  ⟨(c5_insurance_listing [c5Claim] c5Claim).1.mpr
      ⟨by decide, by decide, by decide⟩,
   (c5_insurance_listing [c5Claim] c5Claim).2.mpr ⟨by decide, by decide⟩⟩

/-!
Document decision handlers.  Verifying or unverifying a document updates
the document row; any transition to unverified (including a rejection)
additionally clears the reviewer's claim-level approval flag and approval
timestamp on the current claim.
-/

/-- Update the document with the given id inside a claim's document list. -/
def updateDocIn (c : ClaimRec) (docId : Nat) (f : Document → Document) : ClaimRec :=
  { c with documents := c.documents.map fun d => if d.id = docId then f d else d }

/-- The document update written by handleDocumentDecision in the car
portal: verification flag and actor always, date stamped on verify and
cleared on unverify, notes cleared only on verify. -/
def carDecisionDocUpdate (now uid : List Char) (isVerified : Bool)
    (d : Document) : Document :=
  { d with verified_by_car_company := isVerified,
           car_company_verified_by := some uid,
           car_company_verification_date := if isVerified then some now else none,
           car_company_verification_notes :=
             if isVerified then none else d.car_company_verification_notes }

/-- The claim update of the unverify branch in the car portal. -/
def carClaimClearStep (c : ClaimRec) (isVerified : Bool) : ClaimRec :=
  if !isVerified then
    { c with is_approved_by_car_company := some false,
             car_company_approval_date := none }
  else c

/-- The safety guard at the end of the car handleDocumentDecision, stated
for the re-fetched claim row (modelled as the locally updated claim, i.e.
assuming no remote trigger intervened): a claim that reads auto-approved
while fully verified and not explicitly submitted or approved is reset. -/
def carDecisionSafetyGuard (c : ClaimRec) : ClaimRec :=
  if carAllDocsVerified (carFetchDocs c.documents) &&
     (decide (c.is_approved_by_car_company = some true) ||
      decide (c.car_company_status = some approvedStr)) &&
     !(decide (lowerL (c.status.getD []) = ("submitted".toList)) ||
       decide (lowerL (c.status.getD []) = approvedStr)) then
    { c with is_approved_by_car_company := some false,
             car_company_status := some pendingStr }
  else c

/-- handleDocumentDecision in the car portal (successful update path). -/
def carHandleDocumentDecision (now uid : List Char) (c : ClaimRec)
    (docId : Nat) (isVerified : Bool) : ClaimRec :=
  carDecisionSafetyGuard
    (carClaimClearStep
      (updateDocIn c docId (carDecisionDocUpdate now uid isVerified)) isVerified)

/-- The document update of handleDocumentDecision in the insurance
portal. -/
def insDecisionDocUpdate (now uid : List Char) (isVerified : Bool)
    (d : Document) : Document :=
  { d with verified_by_insurance_company := isVerified,
           insurance_verified_by := some uid,
           insurance_verification_date := if isVerified then some now else none,
           insurance_verification_notes :=
             if isVerified then none else d.insurance_verification_notes }

/-- The claim update of the unverify branch in the insurance portal. -/
def insClaimClearStep (c : ClaimRec) (isVerified : Bool) : ClaimRec :=
  if !isVerified then
    { c with is_approved_by_insurance_company := some false,
             insurance_company_approval_date := none }
  else c

/-- handleDocumentDecision in the insurance portal (no safety guard exists
there). -/
def insHandleDocumentDecision (now uid : List Char) (c : ClaimRec)
    (docId : Nat) (isVerified : Bool) : ClaimRec :=
  insClaimClearStep
    (updateDocIn c docId (insDecisionDocUpdate now uid isVerified)) isVerified

/-- rejectionNotes computed by confirmDocumentRejection: no dropdown
selection aborts, the others option requires non-blank free text and is
marked with a leading Other tag, any other selection is stored as is. -/
def rejectionNotesOf (reasonSelect otherText : List Char) : Option (List Char) :=
  if reasonSelect.isEmpty then none
  else if reasonSelect = ("others".toList) then
    if (trimL otherText).isEmpty then none
    else some (("Other: ".toList) ++ trimL otherText)
  else some reasonSelect

/-- Document and claim updates of a successful car-portal document
rejection. -/
def carApplyDocumentRejection (c : ClaimRec) (docId : Nat)
    (notes : List Char) : ClaimRec :=
  { updateDocIn c docId
      (fun d => { d with verified_by_car_company := false,
                         car_company_verification_date := none,
                         car_company_verification_notes := some notes })
    with is_approved_by_car_company := some false,
         car_company_approval_date := none }

/-- confirmDocumentRejection in the car portal. -/
def carConfirmDocumentRejection (c : ClaimRec) (docId : Nat)
    (reasonSelect otherText : List Char) : Option ClaimRec :=
  (rejectionNotesOf reasonSelect otherText).map
    (carApplyDocumentRejection c docId)

/-- Document and claim updates of a successful insurance-portal document
rejection. -/
def insApplyDocumentRejection (c : ClaimRec) (docId : Nat)
    (notes : List Char) : ClaimRec :=
  { updateDocIn c docId
      (fun d => { d with verified_by_insurance_company := false,
                         insurance_verification_date := none,
                         insurance_verification_notes := some notes })
    with is_approved_by_insurance_company := some false,
         insurance_company_approval_date := none }

/-- confirmDocumentRejection in the insurance portal. -/
def insConfirmDocumentRejection (c : ClaimRec) (docId : Nat)
    (reasonSelect otherText : List Char) : Option ClaimRec :=
  (rejectionNotesOf reasonSelect otherText).map
    (insApplyDocumentRejection c docId)

theorem carDecisionSafetyGuard_flag {c : ClaimRec}
    (h : c.is_approved_by_car_company = some false) :
    (carDecisionSafetyGuard c).is_approved_by_car_company = some false := by
  unfold carDecisionSafetyGuard
  split
  · rfl
  · exact h

theorem carDecisionSafetyGuard_date (c : ClaimRec) :
    (carDecisionSafetyGuard c).car_company_approval_date =
      c.car_company_approval_date := by
  unfold carDecisionSafetyGuard
  split <;> rfl

/-- C3: every unverify transition (manual unverify in either portal, or a
document rejection in either portal) clears that reviewer's claim-level
approval flag and nulls its approval timestamp on the claim. -/
theorem c3_unverify_clears_approval (now uid : List Char) (c : ClaimRec)
    (docId : Nat) :
    ((carHandleDocumentDecision now uid c docId false).is_approved_by_car_company
        = some false ∧
     (carHandleDocumentDecision now uid c docId false).car_company_approval_date
        = none)
    ∧ ((insHandleDocumentDecision now uid c docId false).is_approved_by_insurance_company
        = some false ∧
       (insHandleDocumentDecision now uid c docId false).insurance_company_approval_date
        = none)
    ∧ (∀ notes : List Char,
        (carApplyDocumentRejection c docId notes).is_approved_by_car_company
          = some false ∧
        (carApplyDocumentRejection c docId notes).car_company_approval_date = none)
    ∧ (∀ notes : List Char,
        (insApplyDocumentRejection c docId notes).is_approved_by_insurance_company
          = some false ∧
        (insApplyDocumentRejection c docId notes).insurance_company_approval_date
          = none)
    ∧ (∀ (rs ot : List Char) (c' : ClaimRec),
        carConfirmDocumentRejection c docId rs ot = some c' →
        c'.is_approved_by_car_company = some false ∧
        c'.car_company_approval_date = none)
    ∧ (∀ (rs ot : List Char) (c' : ClaimRec),
        insConfirmDocumentRejection c docId rs ot = some c' →
        c'.is_approved_by_insurance_company = some false ∧
        c'.insurance_company_approval_date = none) := by
  refine ⟨⟨?_, ?_⟩, ⟨rfl, rfl⟩, fun _ => ⟨rfl, rfl⟩, fun _ => ⟨rfl, rfl⟩, ?_, ?_⟩
  · exact carDecisionSafetyGuard_flag rfl
  · rw [carHandleDocumentDecision, carDecisionSafetyGuard_date]
    rfl
  · intro rs ot c' h
    unfold carConfirmDocumentRejection at h
    rw [Option.map_eq_some'] at h
    obtain ⟨notes, _, rfl⟩ := h
    exact ⟨rfl, rfl⟩
  · intro rs ot c' h
    unfold insConfirmDocumentRejection at h
    rw [Option.map_eq_some'] at h
    obtain ⟨notes, _, rfl⟩ := h
    exact ⟨rfl, rfl⟩

/-- Concrete instantiation of the C3 theorem. -/
theorem c3_unverify_clears_approval_witness :
    (carHandleDocumentDecision [] [] claim0 0 false).is_approved_by_car_company
      = some false ∧
    carConfirmDocumentRejection claim0 0 ("document_expired".toList) [] =
      some (carApplyDocumentRejection claim0 0 ("document_expired".toList)) ∧
    (carApplyDocumentRejection claim0 0
      ("document_expired".toList)).is_approved_by_car_company = some false ∧
    (insApplyDocumentRejection claim0 0
      ("document_expired".toList)).insurance_company_approval_date = none :=
  ⟨(c3_unverify_clears_approval [] [] claim0 0).1.1,
   by decide,
   ((c3_unverify_clears_approval [] [] claim0 0).2.2.2.2.1
     ("document_expired".toList) []
     (carApplyDocumentRejection claim0 0 ("document_expired".toList))
     (by decide)).1,
   ((c3_unverify_clears_approval [] [] claim0 0).2.2.2.2.2
     ("document_expired".toList) []
     (insApplyDocumentRejection claim0 0 ("document_expired".toList))
     (by decide)).2⟩

/-!
Claim rejection.  Both portals install a confirm handler on the rejection
modal that trims the typed reason, shows an error and stops when it is
empty, and otherwise issues the rejected claim update and queues the
owner notification.
-/

/-- Outcome of clicking confirm in the claim rejection modal. -/
structure RejectOutcome where
  claimUpdate : Option ClaimRec
  notificationQueued : Bool
  errorShown : Option (List Char)
deriving DecidableEq

/-- decideClaim with the rejected decision in the car portal. -/
def carDecideClaimRejected (now : List Char) (c : ClaimRec)
    (notes : List Char) : ClaimRec :=
  { c with car_company_status := some rejectedStr,
           is_approved_by_car_company := some false,
           status := some rejectedStr,
           car_company_approval_date := none,
           rejected_at := some now,
           car_company_approval_notes :=
             if notes.isEmpty then c.car_company_approval_notes else some notes }

/-- The confirm-click handler installed by openRejectionModal in the car
portal. -/
def carConfirmClaimRejection (now : List Char) (c : ClaimRec)
    (notesInput : List Char) : RejectOutcome :=
  if (trimL notesInput).isEmpty then
    { claimUpdate := none, notificationQueued := false,
      errorShown := some ("Please provide a reason for rejection".toList) }
  else
    { claimUpdate := some (carDecideClaimRejected now c (trimL notesInput)),
      notificationQueued := true, errorShown := none }

/-- decideClaim with the rejected decision in the insurance portal. -/
def insDecideClaimRejected (now : List Char) (c : ClaimRec)
    (notes : List Char) : ClaimRec :=
  { c with status := some rejectedStr,
           is_approved_by_insurance_company := some false,
           rejected_at := some now,
           insurance_company_approval_notes :=
             if notes.isEmpty then c.insurance_company_approval_notes
             else some notes }

/-- The confirm-click handler installed by openRejectionModal in the
insurance portal. -/
def insConfirmClaimRejection (now : List Char) (c : ClaimRec)
    (notesInput : List Char) : RejectOutcome :=
  if (trimL notesInput).isEmpty then
    { claimUpdate := none, notificationQueued := false,
      errorShown := some ("Please provide a reason for rejection".toList) }
  else
    { claimUpdate := some (insDecideClaimRejected now c (trimL notesInput)),
      notificationQueued := true, errorShown := none }

/-- C7: confirming a claim rejection with an empty or whitespace-only
reason performs no claim update and queues no notification, only a
user-visible error, in both portals; a rejection update is issued only for
a non-empty trimmed reason. -/
theorem c7_empty_reason_blocked (now : List Char) (c : ClaimRec)
    (notesInput : List Char) :
    (trimL notesInput = [] →
      carConfirmClaimRejection now c notesInput =
        { claimUpdate := none, notificationQueued := false,
          errorShown := some ("Please provide a reason for rejection".toList) } ∧
      insConfirmClaimRejection now c notesInput =
        { claimUpdate := none, notificationQueued := false,
          errorShown := some ("Please provide a reason for rejection".toList) })
    ∧ (∀ u : ClaimRec,
        (carConfirmClaimRejection now c notesInput).claimUpdate = some u →
        trimL notesInput ≠ [])
    ∧ (∀ u : ClaimRec,
        (insConfirmClaimRejection now c notesInput).claimUpdate = some u →
        trimL notesInput ≠ []) := by
  refine ⟨?_, ?_, ?_⟩
  · intro h
    have he : (trimL notesInput).isEmpty = true := by simp [h]
    constructor
    · unfold carConfirmClaimRejection
      rw [if_pos he]
    · unfold insConfirmClaimRejection
      rw [if_pos he]
  · intro u hu hnil
    have he : (trimL notesInput).isEmpty = true := by simp [hnil]
    unfold carConfirmClaimRejection at hu
    rw [if_pos he] at hu
    exact absurd hu (by simp)
  · intro u hu hnil
    have he : (trimL notesInput).isEmpty = true := by simp [hnil]
    unfold insConfirmClaimRejection at hu
    rw [if_pos he] at hu
    exact absurd hu (by simp)

/-- Concrete instantiation of the C7 theorem: a whitespace-only reason is
blocked, and issued updates imply a non-blank reason. -/
theorem c7_empty_reason_blocked_witness :
    (carConfirmClaimRejection [] claim0 (" ".toList) =
        { claimUpdate := none, notificationQueued := false,
          errorShown := some ("Please provide a reason for rejection".toList) } ∧
     insConfirmClaimRejection [] claim0 (" ".toList) =
        { claimUpdate := none, notificationQueued := false,
          errorShown := some ("Please provide a reason for rejection".toList) }) ∧
    trimL ("bad documents".toList) ≠ [] :=
  ⟨(c7_empty_reason_blocked [] claim0 (" ".toList)).1 (by decide),
   (c7_empty_reason_blocked [] claim0 ("bad documents".toList)).2.1
     (carDecideClaimRejected [] claim0 (trimL ("bad documents".toList)))
     (by decide)⟩

/-!
Admin signup (src/unnamed/part_000): role-selection normalization and
payload validation ahead of the account-creation request.
-/

def userRole : List Char := "user".toList

/-- The metadataRole string built by normalizeSelection: trim, lower-case,
turn runs of underscores and whitespace into hyphens, collapse hyphen
runs. -/
def signupNormalizedRole (r : List Char) : List Char :=
  collapseRuns (fun c => c == '-') '-'
    (collapseRuns (fun c => isWsChar c || c == '_') '-' (lowerL (trimL r)))

/-- normalizeSelection: a missing or empty selection defaults to user;
otherwise token matching picks the canonical pair, falling back to user
with the normalized text (or user when it is empty) as metadata role. -/
def normalizeSelection (role : Option (List Char)) : List Char × List Char :=
  match role with
  | none => (userRole, userRole)
  | some r =>
    if r.isEmpty then (userRole, userRole)
    else if containsTok carTok (signupNormalizedRole r) &&
            containsTok companyTok (signupNormalizedRole r) then
      ("car_company".toList, "car-company".toList)
    else if containsTok insuranceTok (signupNormalizedRole r) &&
            containsTok companyTok (signupNormalizedRole r) then
      ("insurance_company".toList, "insurance-company".toList)
    else if containsTok adminTok (signupNormalizedRole r) then
      (adminRole, adminRole)
    else
      (userRole,
       if (signupNormalizedRole r).isEmpty then userRole
       else signupNormalizedRole r)

/-- validatePayload: the first failing check yields its error message. -/
def validatePayload (email password confirmPassword role : List Char) :
    Option (List Char) :=
  if email.isEmpty then
    some ("Enter an email address to continue.".toList)
  else if password.isEmpty || decide (password.length < 8) then
    some ("Choose a password with at least 8 characters.".toList)
  else if decide (password ≠ confirmPassword) then
    some ("Passwords do not match. Please re-enter and try again.".toList)
  else if role.isEmpty then
    some ("Select the portal role that should be assigned to this account.".toList)
  else none

/-- Result of submitting the admin signup form. -/
inductive SignupAction where
  | noRequest (message : List Char)
  | request (email password dbRole metadataRole : List Char)
deriving DecidableEq

/-- handleSignup: trims the email, normalizes the selected role, validates,
and only on success issues the account-creation request. -/
def handleSignup (email password confirmPassword : List Char)
    (selectedRole : Option (List Char)) : SignupAction :=
  match validatePayload (trimL email) password confirmPassword
      (normalizeSelection selectedRole).1 with
  | some msg => SignupAction.noRequest msg
  | none =>
    SignupAction.request (trimL email) password
      (normalizeSelection selectedRole).1 (normalizeSelection selectedRole).2

/-- The dbRole produced by normalizeSelection is never empty. -/
theorem normalizeSelection_dbRole_ne_nil (role : Option (List Char)) :
    (normalizeSelection role).1 ≠ [] := by
  rcases role with _ | r
  · decide
  · simp only [normalizeSelection]
    split_ifs <;> first | decide | exact show userRole ≠ [] by decide

/-- C10: no account-creation request is issued unless the trimmed email is
non-empty, the password has at least eight characters, it matches the
confirmation, and the role is non-empty; any failing check stops the
handler with an error message and no request; and the role check cannot
fail because normalizeSelection always returns a non-empty dbRole. -/
theorem c10_signup_validation (email password confirmPassword : List Char)
    (selectedRole : Option (List Char)) :
    (∀ e p db md : List Char,
      handleSignup email password confirmPassword selectedRole =
        SignupAction.request e p db md →
      trimL email ≠ [] ∧ 8 ≤ password.length ∧
      password = confirmPassword ∧ db ≠ [])
    ∧ ((trimL email = [] ∨ password.length < 8 ∨ password ≠ confirmPassword) →
        ∃ msg, handleSignup email password confirmPassword selectedRole =
          SignupAction.noRequest msg)
    ∧ (normalizeSelection selectedRole).1 ≠ [] := by
  refine ⟨?_, ?_, normalizeSelection_dbRole_ne_nil selectedRole⟩
  · intro e p db md hreq
    cases hval : validatePayload (trimL email) password confirmPassword
        (normalizeSelection selectedRole).1 with
    | some msg =>
      unfold handleSignup at hreq
      rw [hval] at hreq
      exact absurd hreq (by simp)
    | none =>
      unfold handleSignup at hreq
      rw [hval] at hreq
      simp only [SignupAction.request.injEq] at hreq
      obtain ⟨-, -, hdb, -⟩ := hreq
      unfold validatePayload at hval
      split_ifs at hval with h1 h2 h3 h4
      have hlen : 8 ≤ password.length := by
        simp only [Bool.or_eq_true, decide_eq_true_eq] at h2
        push_neg at h2
        omega
      have hpc : password = confirmPassword := by
        simp only [decide_eq_true_eq] at h3
        push_neg at h3
        exact h3
      refine ⟨by simpa using h1, hlen, hpc, ?_⟩
      rw [← hdb]
      exact normalizeSelection_dbRole_ne_nil selectedRole

  · intro hbad
    have hsome : ∃ msg, validatePayload (trimL email) password confirmPassword
        (normalizeSelection selectedRole).1 = some msg := by
      unfold validatePayload
      split_ifs with h1 h2 h3 h4
      · exact ⟨_, rfl⟩
      · exact ⟨_, rfl⟩
      · exact ⟨_, rfl⟩
      · exact ⟨_, rfl⟩
      · exfalso
        simp only [Bool.or_eq_true, decide_eq_true_eq] at h1 h2 h3
        push_neg at h2
        rcases hbad with hb | hb | hb
        · exact h1 (by simp [hb])
        · omega
        · exact h3 hb
    obtain ⟨msg, hmsg⟩ := hsome
    refine ⟨msg, ?_⟩
    unfold handleSignup
    rw [hmsg]

/-- Concrete instantiation of the C10 theorem. -/
theorem c10_signup_validation_witness :
    (trimL ("admin@insurevis.test".toList) ≠ [] ∧
     8 ≤ ("longenough".toList).length ∧
     ("longenough".toList) = ("longenough".toList) ∧
     (normalizeSelection none).1 ≠ []) ∧
    (∃ msg, handleSignup [] ("longenough".toList) ("longenough".toList) none =
      SignupAction.noRequest msg) ∧
    (normalizeSelection none).1 ≠ [] :=
  ⟨(c10_signup_validation ("admin@insurevis.test".toList)
      ("longenough".toList) ("longenough".toList) none).1
      (trimL ("admin@insurevis.test".toList)) ("longenough".toList)
      (normalizeSelection none).1 (normalizeSelection none).2 (by decide),
   (c10_signup_validation [] ("longenough".toList) ("longenough".toList)
      none).2.1 (Or.inl (by decide)),
   (c10_signup_validation [] ("longenough".toList) ("longenough".toList)
      none).2.2⟩

end Insurevis
